import Mathlib

/-!
Verification development for the `gack` home-monitoring pipeline.

The definitions below are a shallow embedding of the Python sources:
  - `src/gack/database.py` (connection pool and `PoseDatabase` queries),
  - `src/gack/pose_stream.py` (`PoseStreamer` loop and reconnect backoff).

Timestamps stored in the `detections` table are ISO-8601 TEXT; SQLite
compares TEXT with binary (byte-wise) ordering, which we model with the
lexicographic order on Lean `String`.  The nearest-detection queries go
through `julianday`, i.e. they act on the real-number value of the
timestamp; those are modelled over `ℚ` seconds.
-/

namespace Gack

/-- One row of the `detections` table, as read back by the query helpers
in `database.py`.  `detection_data` stands for the stored JSON text. -/
structure DetectionRow where
  id : Nat
  camera_name : String
  timestamp : String
  frame_number : Nat
  video_timestamp : ℚ
  detection_data : String
deriving DecidableEq, Repr

/-- Lexicographic comparison of character lists by code point; on valid
UTF-8 this coincides with SQLite's binary (byte-wise) TEXT collation. -/
def textLe : List Char → List Char → Bool
  | [], _ => true
  | _ :: _, [] => false
  | a :: as, b :: bs =>
    if a.toNat < b.toNat then true
    else if b.toNat < a.toNat then false
    else textLe as bs

/-- SQLite TEXT `<=` on two stored strings. -/
def sqlTextLe (a b : String) : Bool :=
  textLe a.data b.data

/-- The SQL predicate `timestamp BETWEEN ? AND ?` (inclusive on both ends,
binary TEXT comparison). -/
def rowInRange (start_time end_time : String) (r : DetectionRow) : Bool :=
  sqlTextLe start_time r.timestamp && sqlTextLe r.timestamp end_time

/-- SQLite `LIMIT l` applied to an ordered result set: a negative limit
means "no limit" in SQLite. -/
def sqlLimit (l : Int) (rows : List DetectionRow) : List DetectionRow :=
  if l < 0 then rows else rows.take l.toNat

/-- Python truthiness of the `limit` argument (`if limit:`): `None` and
`0` are falsy, every other integer is truthy. -/
def limitTruthy : Option Int → Bool
  | none => false
  | some l => decide (l ≠ 0)

/-- Embedding of `PoseDatabase.get_detections_by_timerange`.  The SQL is
`SELECT ... FROM detections WHERE timestamp BETWEEN ? AND ? ORDER BY
timestamp ASC`, with `LIMIT {limit}` appended only when `limit` is
truthy.  Note the `WHERE` clause never mentions `camera_name`: the
parameter is accepted but unused, exactly as in the source. -/
def get_detections_by_timerange (store : List DetectionRow)
    (camera_name : String) (start_time end_time : String)
    (limit : Option Int) : List DetectionRow :=
  let rows := (store.filter (rowInRange start_time end_time)).insertionSort
    (fun a b => sqlTextLe a.timestamp b.timestamp = true)
  match limit with
  | none => rows
  | some l => if l ≠ 0 then sqlLimit l rows else rows

/-- Row of camera A used in the C1 failing input. -/
def rowA : DetectionRow :=
  { id := 1, camera_name := "camA", timestamp := "T1", frame_number := 1,
    video_timestamp := 0, detection_data := "dA" }

/-- Row of camera B used in the C1 failing input. -/
def rowB : DetectionRow :=
  { id := 2, camera_name := "camB", timestamp := "T2", frame_number := 1,
    video_timestamp := 0, detection_data := "dB" }

/-- A stored row as seen by the nearest-detection queries: `time` is the
real-number value (in seconds) that `julianday(timestamp) * 86400`
denotes for the stored ISO-8601 text.  `id` is the surrogate key; the
list order of a store is the storage (rowid) order. -/
structure TimedRow where
  camera_name : String
  time : ℚ
  id : Nat
deriving DecidableEq, Repr

/-- SQLite `CAST(x AS INTEGER)` on a REAL value: truncation toward zero. -/
def sqlCastInt (x : ℚ) : ℤ :=
  if 0 ≤ x then ⌊x⌋ else ⌈x⌉

/-- The ordering key of the nearest-detection SQL:
`ABS(CAST((julianday(?) - julianday(timestamp)) * 24 * 60 * 60 AS INTEGER))`,
i.e. the absolute whole-second truncation of the time difference. -/
def nearKey (q : ℚ) (r : TimedRow) : ℕ :=
  (sqlCastInt (q - r.time)).natAbs

/-- The SQL filter `WHERE camera_name = ?`. -/
def camFilter (store : List TimedRow) (camera_name : String) : List TimedRow :=
  store.filter (fun r => decide (r.camera_name = camera_name))

/-- `ORDER BY key LIMIT 1`: the first row (in storage order) attaining
the minimal key.  Ties on the key are broken by storage order, the
determinization the spec itself names for this query. -/
def selectMinBy (f : TimedRow → ℕ) : List TimedRow → Option TimedRow
  | [] => none
  | x :: xs => some (xs.foldl (fun b a => if f a < f b then a else b) x)

/-- Embedding of `PoseDatabase.get_nearest_detection`.  The
`target_time` argument is the result of parsing the query timestamp
string with `datetime.fromisoformat` (the external parser): `none` means
the parse raised `ValueError`, in which case the `except` branch returns
`None` before touching the store. -/
def get_nearest_detection (store : List TimedRow) (camera_name : String)
    (target_time : Option ℚ) : Option TimedRow :=
  match target_time with
  | none => none
  | some q => selectMinBy (nearKey q) (camFilter store camera_name)

/-- Embedding of `PoseDatabase.get_nearest_detection_with_tolerance`:
same candidate selection as `get_nearest_detection`, then the candidate
is kept only if its exact absolute time difference (computed in Python
via `total_seconds`, not truncated) is within `tolerance_seconds`. -/
def get_nearest_detection_with_tolerance (store : List TimedRow)
    (camera_name : String) (target_time : Option ℚ)
    (tolerance_seconds : ℚ) : Option TimedRow :=
  match target_time with
  | none => none
  | some q =>
    match selectMinBy (nearKey q) (camFilter store camera_name) with
    | none => none
    | some r =>
      if |q - r.time| ≤ tolerance_seconds then some r else none

/-- The wait evolution of `PoseStreamer._attempt_reconnect` from an
initial wait `w`: each failed attempt sets
`wait_time = min(wait_time * 2, max_reconnect_backoff)`. -/
def doubleSeq (cap w : ℚ) : ℕ → ℚ
  | 0 => w
  | k + 1 => min (doubleSeq cap w k * 2) cap

/-- The wait before the `(n+1)`-th reconnection attempt: the loop enters
with `wait_time = 1.0` and doubles it (capped) after every failure. -/
def waitSeq (cap : ℚ) (n : ℕ) : ℚ :=
  doubleSeq cap 1 n

/-- One run of the reconnect `while` loop of
`PoseStreamer._attempt_reconnect`, driven by two oracles: `succ i` is
whether the `i`-th reopen (`cv2.VideoCapture(url).isOpened()`) succeeds
and `shut i` whether a shutdown signal is observed at the loop condition
before attempt `i`.  `fuel` bounds how many iterations we unroll; the
result pairs the list of waits actually slept with the loop's outcome:
`some true` for a successful reopen, `some false` for exit by shutdown,
and `none` when the loop is still running after `fuel` iterations. -/
def reconnectTrace (cap : ℚ) (succ shut : ℕ → Bool) :
    ℕ → ℚ → ℕ → List ℚ × Option Bool
  | _, _, 0 => ([], none)
  | i, w, fuel + 1 =>
    if shut i then ([], some false)
    else if succ i then ([w], some true)
    else
      ((w :: (reconnectTrace cap succ shut (i + 1) (min (w * 2) cap) fuel).1),
        (reconnectTrace cap succ shut (i + 1) (min (w * 2) cap) fuel).2)

/-- Embedding of `PoseStreamer._attempt_reconnect`: without an RTSP URL
the method bails out with `False`; otherwise it runs the backoff loop
starting at attempt 0 with `wait_time = 1.0`. -/
def attempt_reconnect (hasUrl : Bool) (cap : ℚ) (succ shut : ℕ → Bool)
    (fuel : ℕ) : List ℚ × Option Bool :=
  if hasUrl then reconnectTrace cap succ shut 0 1 fuel
  else ([], some false)

/-- One person detection as produced by `process_frame` (the pydantic
`Detection` model of `pose_stream.py`); Python floats are modelled as
`ℚ`. -/
structure Detection where
  pose : List (ℚ × ℚ)
  confidence : ℚ
  bbox : ℚ × ℚ × ℚ × ℚ
  keypoint_confidences : List ℚ
  source_frame_width : Option ℤ
  source_frame_height : Option ℤ
deriving DecidableEq, Repr

/-- The data handed to `PoseDatabase.save_detection` by
`PoseStreamer._save_detection` for one persisted frame. -/
structure SavedDetection where
  camera_name : String
  frame_number : ℕ
  video_timestamp : ℚ
  detections : List Detection
deriving DecidableEq, Repr

/-- The state carried across iterations of `PoseStreamer.stream`:
`last_output_time` and `frame_number` are the instance attributes the
loop mutates; `emitted` is ghost instrumentation logging the frame
number assigned to each emitted (non-gated) frame, and `saved` logs the
records written to the store. -/
structure StreamState where
  lastOutputTime : ℚ
  frame_number : ℕ
  emitted : List ℕ
  saved : List SavedDetection
deriving DecidableEq, Repr

/-- The environment's contribution to one iteration of the stream loop:
the shutdown flags observed at the loop condition, the result of
`cap.read()`, the result of `_attempt_reconnect` (consulted only when
the read failed), `time.time()`, `CAP_PROP_POS_MSEC / 1000`, and the
person detections returned by `process_frame`. -/
structure FrameEvent where
  shutdown : Bool
  readOk : Bool
  reconnectOk : Bool
  now : ℚ
  video_timestamp : ℚ
  detections : List Detection
deriving DecidableEq, Repr

/-- The body of one successful-read iteration of `PoseStreamer.stream`:
drop the frame when less than `interval = 1/fps` seconds passed since
`last_output_time` (which is then not updated); otherwise update
`last_output_time`, increment `frame_number`, and append a record to the
store exactly when `len(detections) > 0 and self.db`. -/
def processFrame (camera_name : String) (interval : ℚ) (dbConfigured : Bool)
    (s : StreamState) (ev : FrameEvent) : StreamState :=
  if ev.now - s.lastOutputTime < interval then s
  else
    { lastOutputTime := ev.now
      frame_number := s.frame_number + 1
      emitted := s.emitted ++ [s.frame_number + 1]
      saved :=
        if ev.detections.length > 0 ∧ dbConfigured = true then
          s.saved ++ [{ camera_name := camera_name
                        frame_number := s.frame_number + 1
                        video_timestamp := ev.video_timestamp
                        detections := ev.detections }]
        else s.saved }

/-- The `while` loop of `PoseStreamer.stream` over a finite schedule of
iteration inputs: stop on shutdown; on a failed read stop or retry
according to `_attempt_reconnect`'s result (retrying changes no state);
otherwise run the loop body. -/
def streamRun (camera_name : String) (interval : ℚ) (dbConfigured : Bool) :
    StreamState → List FrameEvent → StreamState
  | s, [] => s
  | s, ev :: rest =>
    if ev.shutdown then s
    else if ev.readOk = false then
      if ev.reconnectOk then
        streamRun camera_name interval dbConfigured s rest
      else s
    else
      streamRun camera_name interval dbConfigured
        (processFrame camera_name interval dbConfigured s ev) rest

/-- The streamer state at loop entry: `last_output_time = time.time()`,
`frame_number = 0`, nothing emitted or saved yet. -/
def initialStreamState (t0 : ℚ) : StreamState :=
  { lastOutputTime := t0, frame_number := 0, emitted := [], saved := [] }

/-- State of a `DatabaseConnectionPool`: the FIFO queue of pooled
connections (asyncio.Queue, identified by numeric ids), the
`_initialized` flag and the configured `max_connections`. -/
structure PoolState where
  queue : List ℕ
  initialized : Bool
  max_connections : ℕ
deriving DecidableEq, Repr

/-- Embedding of `DatabaseConnectionPool.initialize` (the body runs
under the init lock): an already-initialized pool is returned untouched;
otherwise `max_connections` fresh connections are created and put into
the queue and the flag is set. -/
def initPool (p : PoolState) : PoolState :=
  if p.initialized then p
  else { p with queue := p.queue ++ List.range p.max_connections,
                initialized := true }

/-- The pool state right before `await self._pool.get()` in
`get_connection`: the method first initializes the pool if needed. -/
def acquireState (p : PoolState) : PoolState :=
  if p.initialized then p else initPool p

/-- Embedding of the `get_connection` async context manager together
with one caller: take the head connection from the queue, run the
caller's `work` on it (its `Except` result captures both a normal return
and a raised exception), and — in the `finally` block — put the
connection back at the tail of the queue.  An empty queue means
`await self._pool.get()` blocks forever, modelled as `none`. -/
def get_connection {ε α : Type} (p : PoolState) (work : ℕ → Except ε α) :
    Option (Except ε α × PoolState) :=
  match (acquireState p).queue with
  | [] => none
  | c :: rest => some (work c, { acquireState p with queue := rest ++ [c] })

/-- Single-camera row at time 0 used in the C2 counterexample. -/
def rowNear0 : TimedRow := { camera_name := "cam", time := 0, id := 1 }

/-- Single-camera row at time 1 used in the C2 counterexample. -/
def rowNear1 : TimedRow := { camera_name := "cam", time := 1, id := 2 }

/-- Row at time 9/10 used in the C7 counterexample. -/
def rowNear910 : TimedRow := { camera_name := "cam", time := 9/10, id := 3 }

/-- Row at time 1/10 used in the C7 counterexample. -/
def rowNear110 : TimedRow := { camera_name := "cam", time := 1/10, id := 4 }

/-- The single seeded record of the spec's boundary example (time 100s). -/
def rowNear100 : TimedRow := { camera_name := "cam", time := 100, id := 5 }

/-- A concrete person detection used in the streamer witnesses. -/
def det1 : Detection :=
  { pose := [], confidence := 1, bbox := (0, 0, 0, 0),
    keypoint_confidences := [], source_frame_width := none,
    source_frame_height := none }

/-- A successful-read iteration with one person detected, arriving well
after the last output. -/
def ev1 : FrameEvent :=
  { shutdown := false, readOk := true, reconnectOk := true, now := 10,
    video_timestamp := 2, detections := [det1] }

/-- A successful-read iteration arriving too soon, dropped by the
frame-rate gate at interval 1. -/
def evGated : FrameEvent :=
  { shutdown := false, readOk := true, reconnectOk := true, now := 1/2,
    video_timestamp := 0, detections := [] }

/-- The record that processing `ev1` from the initial state persists. -/
def rec1 : SavedDetection :=
  { camera_name := "cam", frame_number := 1, video_timestamp := 2,
    detections := [det1] }

/-- Pooled work that always raises, used in the C5 witness. -/
def failWork : ℕ → Except String Unit :=
  fun _ => Except.error "boom"

end Gack

namespace Gack

/-- C1: querying `get_detections_by_timerange` for camera "camA" on a
store that also holds an in-range record of camera "camB" returns the
"camB" record as well — the camera filter claimed by the spec (and by
the web endpoint's own "Camera name to filter by" documentation) is
absent from the SQL. -/
theorem C1_timerange_returns_other_camera :
    rowB ∈ get_detections_by_timerange [rowA, rowB] "camA" "T0" "T9" none
      ∧ rowB.camera_name ≠ "camA" := by
  constructor
  · decide
  · decide

/-- C10: a `limit` of `0` is falsy in Python, so no `LIMIT` clause is
appended and the query behaves exactly as with `limit = None`; in
particular every in-range record of the store appears in the result. -/
theorem C10_limit_zero_means_no_limit
    (store : List DetectionRow) (camera_name start_time end_time : String) :
    get_detections_by_timerange store camera_name start_time end_time (some 0)
      = get_detections_by_timerange store camera_name start_time end_time none
    ∧ ∀ r ∈ store, rowInRange start_time end_time r = true →
        r ∈ get_detections_by_timerange store camera_name start_time end_time
          (some 0) := by
  refine ⟨by simp [get_detections_by_timerange], ?_⟩
  intro r hr hrange
  have hmem : r ∈ store.filter (rowInRange start_time end_time) :=
    List.mem_filter.mpr ⟨hr, hrange⟩
  have hperm := List.perm_insertionSort
    (fun a b : DetectionRow => sqlTextLe a.timestamp b.timestamp = true)
    (store.filter (rowInRange start_time end_time))
  simp only [get_detections_by_timerange]
  exact hperm.mem_iff.mpr hmem

/-- C10 witness: the theorem applied at a concrete store. -/
theorem C10_limit_zero_means_no_limit_witness :
    rowA ∈ get_detections_by_timerange [rowA] "camA" "T0" "T9" (some 0) :=
  ((C10_limit_zero_means_no_limit [rowA] "camA" "T0" "T9").2 rowA
    (by decide) (by decide))

/-- The fold underlying `selectMinBy` returns either its accumulator or
a list element, and its result minimizes `f` over both. -/
theorem selectMinBy_foldl_spec (f : TimedRow → ℕ) (xs : List TimedRow) :
    ∀ b : TimedRow,
      (xs.foldl (fun b a => if f a < f b then a else b) b = b ∨
        xs.foldl (fun b a => if f a < f b then a else b) b ∈ xs)
      ∧ f (xs.foldl (fun b a => if f a < f b then a else b) b) ≤ f b
      ∧ ∀ a ∈ xs, f (xs.foldl (fun b a => if f a < f b then a else b) b) ≤ f a := by
  induction xs with
  | nil => intro b; exact ⟨Or.inl rfl, le_refl _, by simp⟩
  | cons x xs ih =>
    intro b
    simp only [List.foldl_cons]
    by_cases hx : f x < f b
    · rw [if_pos hx]
      obtain ⟨hmem, hle, hall⟩ := ih x
      refine ⟨?_, hle.trans (le_of_lt hx), ?_⟩
      · rcases hmem with h | h
        · right; rw [h]; exact List.mem_cons_self x xs
        · exact Or.inr (List.mem_cons_of_mem _ h)
      · intro a ha
        rcases List.mem_cons.mp ha with rfl | ha'
        · exact hle
        · exact hall a ha'
    · rw [if_neg hx]
      obtain ⟨hmem, hle, hall⟩ := ih b
      refine ⟨?_, hle, ?_⟩
      · rcases hmem with h | h
        · exact Or.inl h
        · exact Or.inr (List.mem_cons_of_mem _ h)
      · intro a ha
        rcases List.mem_cons.mp ha with rfl | ha'
        · exact hle.trans (le_of_not_lt hx)
        · exact hall a ha'

/-- `selectMinBy` on a non-empty list yields a minimizing element. -/
theorem selectMinBy_spec (f : TimedRow → ℕ) (l : List TimedRow)
    (h : l ≠ []) :
    ∃ r, selectMinBy f l = some r ∧ r ∈ l ∧ ∀ a ∈ l, f r ≤ f a := by
  match l with
  | [] => exact absurd rfl h
  | x :: xs =>
    obtain ⟨hmem, hle, hall⟩ := selectMinBy_foldl_spec f xs x
    refine ⟨_, rfl, ?_, ?_⟩
    · rcases hmem with h | h
      · rw [h]; exact List.mem_cons_self _ _
      · exact List.mem_cons_of_mem _ h
    · intro a ha
      rcases List.mem_cons.mp ha with rfl | ha'
      · exact hle
      · exact hall a ha'

/-- Truncation toward zero computes the floor of the absolute value:
the key under-approximates the exact distance by less than one. -/
theorem sqlCastInt_natAbs_bounds (x : ℚ) :
    ((sqlCastInt x).natAbs : ℚ) ≤ |x| ∧ |x| < (sqlCastInt x).natAbs + 1 := by
  unfold sqlCastInt
  by_cases hx : 0 ≤ x
  · rw [if_pos hx, abs_of_nonneg hx]
    have h0 : (0:ℚ) ≤ (⌊x⌋ : ℚ) := by exact_mod_cast Int.floor_nonneg.mpr hx
    have hcast : ((⌊x⌋.natAbs : ℚ)) = (⌊x⌋ : ℚ) := by
      rw [Int.cast_natAbs, Int.cast_abs]
      exact abs_of_nonneg h0
    rw [hcast]
    exact ⟨Int.floor_le x, Int.lt_floor_add_one x⟩
  · rw [if_neg hx]
    have hxlt : x < 0 := lt_of_not_le hx
    rw [abs_of_neg hxlt]
    have h0 : (⌈x⌉ : ℚ) ≤ 0 := by
      have h0' : ⌈x⌉ ≤ (0:ℤ) := Int.ceil_le.mpr (by exact_mod_cast hxlt.le)
      exact_mod_cast h0'
    have hcast : ((⌈x⌉.natAbs : ℚ)) = -(⌈x⌉ : ℚ) := by
      rw [Int.cast_natAbs, Int.cast_abs]
      exact abs_of_nonpos h0
    have hle := Int.le_ceil x
    have hlt := Int.ceil_lt_add_one x
    rw [hcast]
    constructor
    · linarith
    · linarith

/-- A smaller key means an exact distance within one second of the
other row's exact distance. -/
theorem nearKey_dist_lt (q : ℚ) (r r' : TimedRow)
    (h : nearKey q r ≤ nearKey q r') :
    |q - r.time| < |q - r'.time| + 1 := by
  have h1 := sqlCastInt_natAbs_bounds (q - r.time)
  have h2 := sqlCastInt_natAbs_bounds (q - r'.time)
  have hc : ((nearKey q r : ℚ)) ≤ (nearKey q r' : ℚ) := by exact_mod_cast h
  unfold nearKey at hc
  have := h1.2
  have := h2.1
  linarith

/-- A time difference strictly inside the open unit interval around zero
truncates to zero under `CAST(... AS INTEGER)`. -/
theorem sqlCastInt_eq_zero (x : ℚ) (h1 : -1 < x) (h2 : x < 1) :
    sqlCastInt x = 0 := by
  unfold sqlCastInt
  by_cases hx : 0 ≤ x
  · rw [if_pos hx, Int.floor_eq_iff]
    constructor
    · push_cast; linarith
    · push_cast; linarith
  · rw [if_neg hx, Int.ceil_eq_iff]
    constructor
    · push_cast; linarith
    · push_cast; linarith [lt_of_not_le hx]

/-- C2 counterexample: with rows of camera "cam" at times 0 and 1 and a
query at 9/10, both rows have truncated-second key 0, so the SQL keeps
the first row in storage order (time 0, distance 9/10) even though the
row at time 1 lies at distance 1/10 — the returned record does not
minimize the absolute time distance. -/
theorem C2_nearest_not_exact_counterexample :
    get_nearest_detection [rowNear0, rowNear1] "cam" (some (9/10))
      = some rowNear0
    ∧ rowNear1 ∈ camFilter [rowNear0, rowNear1] "cam"
    ∧ |(9/10 : ℚ) - rowNear1.time| < |(9/10 : ℚ) - rowNear0.time| := by
  have hf : camFilter [rowNear0, rowNear1] "cam" = [rowNear0, rowNear1] := by
    simp [camFilter, rowNear0, rowNear1]
  have k0 : nearKey (9/10) rowNear0 = 0 := by
    have h := sqlCastInt_eq_zero ((9:ℚ)/10 - rowNear0.time)
      (by norm_num [rowNear0]) (by norm_num [rowNear0])
    simp [nearKey, h]
  have k1 : nearKey (9/10) rowNear1 = 0 := by
    have h := sqlCastInt_eq_zero ((9:ℚ)/10 - rowNear1.time)
      (by norm_num [rowNear1]) (by norm_num [rowNear1])
    simp [nearKey, h]
  refine ⟨?_, ?_, ?_⟩
  · simp only [get_nearest_detection, hf, selectMinBy, List.foldl, k0, k1]
    norm_num
  · rw [hf]
    exact List.mem_cons_of_mem _ (List.mem_cons_self _ _)
  · rw [show (9:ℚ)/10 - rowNear1.time = -(1/10) by norm_num [rowNear1],
      show (9:ℚ)/10 - rowNear0.time = 9/10 by norm_num [rowNear0],
      abs_neg, abs_of_nonneg (by norm_num : (0:ℚ) ≤ 1/10),
      abs_of_nonneg (by norm_num : (0:ℚ) ≤ 9/10)]
    norm_num

/-- C2 (amended): `get_nearest_detection` returns a record of the camera
minimizing the truncated whole-second distance
`ABS(CAST(Δt AS INTEGER))` (ties broken by storage order); its exact
distance is therefore within one second of optimal, but need not be the
exact minimum. -/
theorem C2_nearest_minimizes_truncated_seconds
    (store : List TimedRow) (camera_name : String) (q : ℚ)
    (h : camFilter store camera_name ≠ []) :
    ∃ r, get_nearest_detection store camera_name (some q) = some r
      ∧ r ∈ camFilter store camera_name
      ∧ (∀ r' ∈ camFilter store camera_name, nearKey q r ≤ nearKey q r')
      ∧ (∀ r' ∈ camFilter store camera_name,
          |q - r.time| < |q - r'.time| + 1) := by
  obtain ⟨r, hsel, hmem, hmin⟩ := selectMinBy_spec (nearKey q) _ h
  refine ⟨r, ?_, hmem, hmin, ?_⟩
  · simpa [get_nearest_detection] using hsel
  · intro r' hr'
    exact nearKey_dist_lt q r r' (hmin r' hr')

/-- C2 witness: the amended theorem applied to a one-row store. -/
theorem C2_nearest_minimizes_truncated_seconds_witness :
    ∃ r, get_nearest_detection [rowNear0] "cam" (some 0) = some r
      ∧ r ∈ camFilter [rowNear0] "cam"
      ∧ (∀ r' ∈ camFilter [rowNear0] "cam", nearKey 0 r ≤ nearKey 0 r')
      ∧ (∀ r' ∈ camFilter [rowNear0] "cam",
          |(0:ℚ) - r.time| < |(0:ℚ) - r'.time| + 1) :=
  C2_nearest_minimizes_truncated_seconds [rowNear0] "cam" 0 (by decide)

/-- C8: a malformed timestamp string makes `datetime.fromisoformat`
raise `ValueError`, and both nearest-detection queries catch it and
return `None` whatever the store holds. -/
theorem C8_malformed_timestamp_returns_none
    (store : List TimedRow) (camera_name : String) (tolerance_seconds : ℚ) :
    get_nearest_detection store camera_name none = none
    ∧ get_nearest_detection_with_tolerance store camera_name none
        tolerance_seconds = none :=
  ⟨rfl, rfl⟩

/-- C7 counterexample: rows of camera "cam" at times 9/10 and 1/10, a
query at 0 and tolerance 1/2.  Both rows have truncated key 0, so the
SQL candidate is the first stored row (distance 9/10); its exact
distance exceeds the tolerance, so the call returns `none` — although
the strictly nearest row (distance 1/10) is within tolerance, which the
claim says must be returned. -/
theorem C7_tolerance_counterexample :
    get_nearest_detection_with_tolerance [rowNear910, rowNear110] "cam"
      (some 0) (1/2) = none
    ∧ rowNear110 ∈ camFilter [rowNear910, rowNear110] "cam"
    ∧ |(0:ℚ) - rowNear110.time| ≤ 1/2
    ∧ |(0:ℚ) - rowNear110.time| < |(0:ℚ) - rowNear910.time| := by
  have hf : camFilter [rowNear910, rowNear110] "cam"
      = [rowNear910, rowNear110] := by
    simp [camFilter, rowNear910, rowNear110]
  have k3 : nearKey 0 rowNear910 = 0 := by
    have h := sqlCastInt_eq_zero (-rowNear910.time)
      (by norm_num [rowNear910]) (by norm_num [rowNear910])
    simp [nearKey, h]
  have k4 : nearKey 0 rowNear110 = 0 := by
    have h := sqlCastInt_eq_zero (-rowNear110.time)
      (by norm_num [rowNear110]) (by norm_num [rowNear110])
    simp [nearKey, h]
  have habs : |(0:ℚ) - rowNear910.time| = 9/10 := by norm_num [rowNear910]
  refine ⟨?_, ?_, ?_, ?_⟩
  · simp only [get_nearest_detection_with_tolerance, hf, selectMinBy,
      List.foldl, k3, k4]
    rw [if_neg (by norm_num : ¬ ((0:ℕ) < 0)), if_neg (by rw [habs]; norm_num)]
  · rw [hf]
    exact List.mem_cons_of_mem _ (List.mem_cons_self _ _)
  · rw [show (0:ℚ) - rowNear110.time = -(1/10) by norm_num [rowNear110],
      abs_neg, abs_of_nonneg (by norm_num : (0:ℚ) ≤ 1/10)]
    norm_num
  · rw [show (0:ℚ) - rowNear110.time = -(1/10) by norm_num [rowNear110],
      show (0:ℚ) - rowNear910.time = -(9/10) by norm_num [rowNear910],
      abs_neg, abs_neg, abs_of_nonneg (by norm_num : (0:ℚ) ≤ 1/10),
      abs_of_nonneg (by norm_num : (0:ℚ) ≤ 9/10)]
    norm_num

/-- C7 (amended): the tolerance check applies to the candidate selected
by truncated-second distance: any record returned belongs to the camera,
is within tolerance, and minimizes the truncated key; the result equals
`get_nearest_detection` filtered through the tolerance test; and if
every record of the camera is farther than the tolerance the call
returns `none` without raising. -/
theorem C7_tolerance_filters_truncated_candidate
    (store : List TimedRow) (camera_name : String) (q tol : ℚ)
    (h : camFilter store camera_name ≠ []) :
    (∀ r, get_nearest_detection_with_tolerance store camera_name (some q) tol
        = some r →
      r ∈ camFilter store camera_name ∧ |q - r.time| ≤ tol
        ∧ ∀ r' ∈ camFilter store camera_name, nearKey q r ≤ nearKey q r')
    ∧ (∀ r, get_nearest_detection store camera_name (some q) = some r →
        get_nearest_detection_with_tolerance store camera_name (some q) tol
          = if |q - r.time| ≤ tol then some r else none)
    ∧ ((∀ r' ∈ camFilter store camera_name, tol < |q - r'.time|) →
        get_nearest_detection_with_tolerance store camera_name (some q) tol
          = none) := by
  obtain ⟨rm, hsel, hmem, hmin⟩ := selectMinBy_spec (nearKey q) _ h
  refine ⟨?_, ?_, ?_⟩
  · intro r hr
    simp only [get_nearest_detection_with_tolerance, hsel] at hr
    by_cases hd : |q - rm.time| ≤ tol
    · rw [if_pos hd] at hr
      cases hr
      exact ⟨hmem, hd, hmin⟩
    · rw [if_neg hd] at hr
      cases hr
  · intro r hr
    simp only [get_nearest_detection, hsel] at hr
    cases hr
    simp only [get_nearest_detection_with_tolerance, hsel]
  · intro hall
    simp only [get_nearest_detection_with_tolerance, hsel]
    rw [if_neg (not_le.mpr (hall rm hmem))]

/-- C7 witness: the amended theorem applied at the spec's boundary
example (one record at 100s, tolerance 5), together with the concrete
boundary behavior: the query at 104 returns the record, at 106 none. -/
theorem C7_tolerance_filters_truncated_candidate_witness :
    get_nearest_detection_with_tolerance [rowNear100] "cam" (some 104) 5
      = some rowNear100
    ∧ get_nearest_detection_with_tolerance [rowNear100] "cam" (some 106) 5
      = none
    ∧ ((∀ r' ∈ camFilter [rowNear100] "cam", (5:ℚ) < |106 - r'.time|) →
        get_nearest_detection_with_tolerance [rowNear100] "cam" (some 106) 5
          = none) := by
  have hf : camFilter [rowNear100] "cam" = [rowNear100] := by
    simp [camFilter, rowNear100]
  refine ⟨?_, ?_,
    (C7_tolerance_filters_truncated_candidate [rowNear100] "cam" 106 5
      (by simp [camFilter, rowNear100])).2.2⟩
  · simp only [get_nearest_detection_with_tolerance, hf, selectMinBy,
      List.foldl]
    rw [if_pos (by norm_num [rowNear100] :
      |(104:ℚ) - rowNear100.time| ≤ 5)]
  · simp only [get_nearest_detection_with_tolerance, hf, selectMinBy,
      List.foldl]
    rw [if_neg (by norm_num [rowNear100] :
      ¬ (|(106:ℚ) - rowNear100.time| ≤ 5))]

/-- Shifting the doubling sequence by one step restarts it from the
once-doubled wait. -/
theorem doubleSeq_shift (cap w : ℚ) :
    ∀ k, doubleSeq cap w (k + 1) = doubleSeq cap (min (w * 2) cap) k := by
  intro k
  induction k with
  | zero => rfl
  | succ k ih =>
    show min (doubleSeq cap w (k + 1) * 2) cap = _
    rw [ih]
    rfl

/-- While every attempt fails and no shutdown arrives, the loop sleeps
exactly the doubling sequence and keeps running. -/
theorem reconnectTrace_all_fail (cap : ℚ) (succ shut : ℕ → Bool)
    (hs : ∀ i, shut i = false) (hf : ∀ i, succ i = false) :
    ∀ (fuel i : ℕ) (w : ℚ),
      reconnectTrace cap succ shut i w fuel
        = ((List.range fuel).map (doubleSeq cap w), none) := by
  intro fuel
  induction fuel with
  | zero => intro i w; rfl
  | succ fuel ih =>
    intro i w
    simp only [reconnectTrace, hs i, hf i, Bool.false_eq_true, if_false]
    rw [ih (i + 1) (min (w * 2) cap)]
    simp only [Prod.mk.injEq, and_true]
    rw [List.range_succ_eq_map, List.map_cons, List.map_map]
    refine congrArg₂ _ rfl ?_
    refine List.map_congr_left (fun k _ => ?_)
    exact (doubleSeq_shift cap w k).symm

/-- The loop reports success only when some reopen attempt succeeded. -/
theorem reconnectTrace_success_requires (cap : ℚ) (succ shut : ℕ → Bool) :
    ∀ (fuel i : ℕ) (w : ℚ),
      (reconnectTrace cap succ shut i w fuel).2 = some true →
      ∃ j, succ j = true := by
  intro fuel
  induction fuel with
  | zero =>
    intro i w h
    exact absurd h (by simp [reconnectTrace])
  | succ fuel ih =>
    intro i w h
    by_cases hsh : shut i
    · simp [reconnectTrace, hsh] at h
    · by_cases hsc : succ i
      · exact ⟨i, hsc⟩
      · simp only [reconnectTrace, hsh, hsc, Bool.false_eq_true,
          if_false] at h
        exact ih _ _ h

/-- Every wait stays at least 1 second when the ceiling allows it. -/
theorem waitSeq_one_le (cap : ℚ) (h : 1 ≤ cap) :
    ∀ n, 1 ≤ waitSeq cap n := by
  intro n
  induction n with
  | zero => exact le_refl 1
  | succ n ih =>
    show (1:ℚ) ≤ min (waitSeq cap n * 2) cap
    exact le_min (by linarith) h

/-- C3 counterexample: with the ceiling configured to 1/2 second the
first wait actually slept is still 1 second — above the ceiling — and
the second wait (1/2) is strictly smaller than the first, so the waits
are not non-decreasing and not all bounded by the ceiling. -/
theorem C3_backoff_counterexample :
    (attempt_reconnect true (1/2) (fun _ => false) (fun _ => false) 2).1
      = [1, 1/2]
    ∧ waitSeq (1/2) 1 < waitSeq (1/2) 0
    ∧ ¬ (waitSeq (1/2) 0 ≤ (1/2 : ℚ)) := by
  have hall := reconnectTrace_all_fail (1/2) (fun _ => false)
    (fun _ => false) (fun _ => rfl) (fun _ => rfl) 2 0 1
  have h1 : waitSeq (1/2 : ℚ) 1 = 1/2 := by
    show min ((1:ℚ) * 2) (1/2) = 1/2
    rw [min_def]
    norm_num
  refine ⟨?_, ?_, ?_⟩
  · show (reconnectTrace (1/2) (fun _ => false) (fun _ => false) 0 1 2).1
      = [1, 1/2]
    rw [hall]
    show [doubleSeq (1/2) 1 0, doubleSeq (1/2) 1 1] = [1, 1/2]
    rw [show doubleSeq (1/2 : ℚ) 1 1 = 1/2 from h1]
    rfl
  · rw [h1]
    show (1:ℚ)/2 < 1
    norm_num
  · show ¬ ((1:ℚ) ≤ 1/2)
    norm_num

/-- C3 (amended): provided the configured ceiling is at least 1 second,
the reconnect waits start at 1, each later wait is the double of the
previous one capped at the ceiling, the waits are non-decreasing and
each at most the ceiling; with no success and no shutdown the loop
performs an attempt for every unit of fuel, sleeping exactly those
waits, and it only reports success when some reopen succeeded. -/
theorem C3_backoff_within_ceiling (cap : ℚ) (succ shut : ℕ → Bool)
    (h1 : (1:ℚ) ≤ cap) :
    waitSeq cap 0 = 1
    ∧ (∀ n, waitSeq cap (n + 1) = min (waitSeq cap n * 2) cap)
    ∧ (∀ n, waitSeq cap n ≤ cap)
    ∧ (∀ n, waitSeq cap n ≤ waitSeq cap (n + 1))
    ∧ ((∀ i, shut i = false) → (∀ i, succ i = false) → ∀ fuel,
        attempt_reconnect true cap succ shut fuel
          = ((List.range fuel).map (waitSeq cap), none))
    ∧ (∀ fuel, (attempt_reconnect true cap succ shut fuel).2 = some true →
        ∃ i, succ i = true) := by
  have hcap : ∀ n, waitSeq cap n ≤ cap := by
    intro n
    cases n with
    | zero => exact h1
    | succ n => exact min_le_right _ _
  refine ⟨rfl, fun n => rfl, hcap, ?_, ?_, ?_⟩
  · intro n
    have hone := waitSeq_one_le cap h1 n
    show waitSeq cap n ≤ min (waitSeq cap n * 2) cap
    exact le_min (by linarith) (hcap n)
  · intro hs hf fuel
    show reconnectTrace cap succ shut 0 1 fuel = _
    exact reconnectTrace_all_fail cap succ shut hs hf fuel 0 1
  · intro fuel h
    exact reconnectTrace_success_requires cap succ shut fuel 0 1 h

/-- C3 witness: the amended theorem at the default ceiling of 5 seconds. -/
theorem C3_backoff_within_ceiling_witness :
    waitSeq 5 0 = 1 ∧ waitSeq 5 3 ≤ 5 ∧ waitSeq 5 2 ≤ waitSeq 5 3 :=
  ⟨(C3_backoff_within_ceiling 5 (fun _ => false) (fun _ => false)
      (by norm_num)).1,
   (C3_backoff_within_ceiling 5 (fun _ => false) (fun _ => false)
      (by norm_num)).2.2.1 3,
   (C3_backoff_within_ceiling 5 (fun _ => false) (fun _ => false)
      (by norm_num)).2.2.2.1 2⟩

/-- Records already saved with non-empty detections stay that way
through the rest of the loop, and every newly saved record has
non-empty detections. -/
theorem streamRun_saved_nonempty (camera_name : String) (interval : ℚ)
    (dbConfigured : Bool) :
    ∀ (evs : List FrameEvent) (s : StreamState),
      (∀ rec ∈ s.saved, rec.detections ≠ []) →
      ∀ rec ∈ (streamRun camera_name interval dbConfigured s evs).saved,
        rec.detections ≠ [] := by
  intro evs
  induction evs with
  | nil => intro s h; exact h
  | cons ev rest ih =>
    intro s h
    simp only [streamRun]
    by_cases hsd : ev.shutdown
    · rw [if_pos hsd]; exact h
    · rw [if_neg hsd]
      by_cases hro : ev.readOk = false
      · rw [if_pos hro]
        by_cases hrc : ev.reconnectOk
        · rw [if_pos hrc]; exact ih s h
        · rw [if_neg hrc]; exact h
      · rw [if_neg hro]
        refine ih _ ?_
        intro rec hrec
        unfold processFrame at hrec
        by_cases hg : ev.now - s.lastOutputTime < interval
        · rw [if_pos hg] at hrec; exact h rec hrec
        · rw [if_neg hg] at hrec
          have hrec' : rec ∈
              (if ev.detections.length > 0 ∧ dbConfigured = true then
                s.saved ++ [{ camera_name := camera_name
                              frame_number := s.frame_number + 1
                              video_timestamp := ev.video_timestamp
                              detections := ev.detections }]
              else s.saved) := hrec
          by_cases hd : ev.detections.length > 0 ∧ dbConfigured = true
          · rw [if_pos hd] at hrec'
            rcases List.mem_append.mp hrec' with hmem | hmem
            · exact h rec hmem
            · have heq := List.mem_singleton.mp hmem
              subst heq
              exact List.length_pos.mp hd.1
          · rw [if_neg hd] at hrec'; exact h rec hrec'

/-- C4: a record is written by the loop body exactly when the frame
passes the rate gate, the inference returned at least one person
detection and a store is configured; consequently every record ever
persisted by a run carries a non-empty detections list. -/
theorem C4_persist_iff_detections (camera_name : String) (interval : ℚ)
    (dbConfigured : Bool) (t0 : ℚ) (evs : List FrameEvent)
    (s : StreamState) (ev : FrameEvent) :
    (processFrame camera_name interval dbConfigured s ev).saved
      = s.saved ++
        (if interval ≤ ev.now - s.lastOutputTime ∧ ev.detections ≠ []
            ∧ dbConfigured = true then
          [{ camera_name := camera_name
             frame_number := s.frame_number + 1
             video_timestamp := ev.video_timestamp
             detections := ev.detections }]
        else [])
    ∧ ∀ rec ∈ (streamRun camera_name interval dbConfigured
        (initialStreamState t0) evs).saved, rec.detections ≠ [] := by
  constructor
  · by_cases hg : ev.now - s.lastOutputTime < interval
    · have h1 : (processFrame camera_name interval dbConfigured s ev).saved
          = s.saved := by
        unfold processFrame; rw [if_pos hg]
      rw [h1, if_neg (fun hc => absurd hc.1 (not_le.mpr hg)),
        List.append_nil]
    · have h1 : (processFrame camera_name interval dbConfigured s ev).saved
          = if ev.detections.length > 0 ∧ dbConfigured = true then
              s.saved ++ [{ camera_name := camera_name
                            frame_number := s.frame_number + 1
                            video_timestamp := ev.video_timestamp
                            detections := ev.detections }]
            else s.saved := by
        unfold processFrame; rw [if_neg hg]
      rw [h1]
      by_cases hd : ev.detections.length > 0 ∧ dbConfigured = true
      · rw [if_pos hd,
          if_pos ⟨not_lt.mp hg, List.length_pos.mp hd.1, hd.2⟩]
      · rw [if_neg hd,
          if_neg (fun hc => hd ⟨List.length_pos.mpr hc.2.1, hc.2.2⟩),
          List.append_nil]
  · refine streamRun_saved_nonempty camera_name interval dbConfigured evs
      (initialStreamState t0) ?_
    intro rec hrec
    exact absurd hrec (by simp [initialStreamState])

/-- The body of the loop preserves the frame-numbering invariant: the
emitted log is `[1, ..., frame_number]`, saved frame numbers are
strictly increasing, and all of them are at most `frame_number`. -/
theorem processFrame_invariant (camera_name : String) (interval : ℚ)
    (dbConfigured : Bool) (s : StreamState) (ev : FrameEvent)
    (h1 : s.emitted = List.range' 1 s.frame_number)
    (h2 : List.Chain' (· < ·) (s.saved.map SavedDetection.frame_number))
    (h3 : ∀ x ∈ s.saved.map SavedDetection.frame_number,
      x ≤ s.frame_number) :
    (processFrame camera_name interval dbConfigured s ev).emitted
      = List.range' 1
          (processFrame camera_name interval dbConfigured s ev).frame_number
    ∧ List.Chain' (· < ·)
        ((processFrame camera_name interval dbConfigured s ev).saved.map
          SavedDetection.frame_number)
    ∧ ∀ x ∈ (processFrame camera_name interval dbConfigured s ev).saved.map
        SavedDetection.frame_number,
        x ≤ (processFrame camera_name interval dbConfigured s ev).frame_number := by
  unfold processFrame
  by_cases hg : ev.now - s.lastOutputTime < interval
  · rw [if_pos hg]; exact ⟨h1, h2, h3⟩
  · rw [if_neg hg]
    refine ⟨?_, ?_, ?_⟩
    · show s.emitted ++ [s.frame_number + 1]
        = List.range' 1 (s.frame_number + 1)
      rw [h1, List.range'_1_concat, Nat.add_comm 1 s.frame_number]
    · show List.Chain' (· < ·)
        ((if ev.detections.length > 0 ∧ dbConfigured = true then
            s.saved ++ [{ camera_name := camera_name
                          frame_number := s.frame_number + 1
                          video_timestamp := ev.video_timestamp
                          detections := ev.detections }]
          else s.saved).map SavedDetection.frame_number)
      by_cases hd : ev.detections.length > 0 ∧ dbConfigured = true
      · rw [if_pos hd, List.map_append]
        refine List.chain'_append.mpr ⟨h2, List.chain'_singleton _, ?_⟩
        intro x hx y hy
        obtain ⟨hne, heq⟩ := List.mem_getLast?_eq_getLast hx
        have hxmem : x ∈ s.saved.map SavedDetection.frame_number := by
          rw [heq]; exact List.getLast_mem hne
        have hy' : y = s.frame_number + 1 := by
          simp only [List.map_cons, List.map_nil, List.head?] at hy
          exact (Option.some_inj.mp hy).symm
        rw [hy']
        exact Nat.lt_succ_of_le (h3 x hxmem)
      · rw [if_neg hd]; exact h2
    · show ∀ x ∈ (if ev.detections.length > 0 ∧ dbConfigured = true then
            s.saved ++ [{ camera_name := camera_name
                          frame_number := s.frame_number + 1
                          video_timestamp := ev.video_timestamp
                          detections := ev.detections }]
          else s.saved).map SavedDetection.frame_number,
          x ≤ s.frame_number + 1
      intro x hx
      by_cases hd : ev.detections.length > 0 ∧ dbConfigured = true
      · rw [if_pos hd, List.map_append] at hx
        rcases List.mem_append.mp hx with hmem | hmem
        · exact (h3 x hmem).trans (Nat.le_succ _)
        · rw [List.mem_singleton.mp hmem]
      · rw [if_neg hd] at hx
        exact (h3 x hx).trans (Nat.le_succ _)

/-- The whole loop preserves the frame-numbering invariant. -/
theorem streamRun_invariant (camera_name : String) (interval : ℚ)
    (dbConfigured : Bool) :
    ∀ (evs : List FrameEvent) (s : StreamState),
      s.emitted = List.range' 1 s.frame_number →
      List.Chain' (· < ·) (s.saved.map SavedDetection.frame_number) →
      (∀ x ∈ s.saved.map SavedDetection.frame_number,
        x ≤ s.frame_number) →
      (streamRun camera_name interval dbConfigured s evs).emitted
        = List.range' 1
            (streamRun camera_name interval dbConfigured s evs).frame_number
      ∧ List.Chain' (· < ·)
          ((streamRun camera_name interval dbConfigured s evs).saved.map
            SavedDetection.frame_number)
      ∧ ∀ x ∈ (streamRun camera_name interval dbConfigured s evs).saved.map
          SavedDetection.frame_number,
          x ≤ (streamRun camera_name interval dbConfigured s evs).frame_number := by
  intro evs
  induction evs with
  | nil => intro s h1 h2 h3; exact ⟨h1, h2, h3⟩
  | cons ev rest ih =>
    intro s h1 h2 h3
    simp only [streamRun]
    by_cases hsd : ev.shutdown
    · rw [if_pos hsd]; exact ⟨h1, h2, h3⟩
    · rw [if_neg hsd]
      by_cases hro : ev.readOk = false
      · rw [if_pos hro]
        by_cases hrc : ev.reconnectOk
        · rw [if_pos hrc]; exact ih s h1 h2 h3
        · rw [if_neg hrc]; exact ⟨h1, h2, h3⟩
      · rw [if_neg hro]
        obtain ⟨g1, g2, g3⟩ := processFrame_invariant camera_name interval
          dbConfigured s ev h1 h2 h3
        exact ih _ g1 g2 g3

/-- C9: over any run from the initial state, the emitted frames are
numbered exactly `1, 2, ..., frame_number` (so numbering starts at 1 and
goes up by exactly 1 per emitted frame), the frame numbers of persisted
records are strictly increasing, a gated frame leaves the whole state —
frame counter included — unchanged, and an emitted frame increments the
counter by exactly one. -/
theorem C9_frame_numbers_strictly_increase (camera_name : String)
    (interval t0 : ℚ) (dbConfigured : Bool) (evs : List FrameEvent) :
    (streamRun camera_name interval dbConfigured
        (initialStreamState t0) evs).emitted
      = List.range' 1
          (streamRun camera_name interval dbConfigured
            (initialStreamState t0) evs).frame_number
    ∧ List.Chain' (· < ·)
        ((streamRun camera_name interval dbConfigured
          (initialStreamState t0) evs).saved.map SavedDetection.frame_number)
    ∧ (∀ (s : StreamState) (ev : FrameEvent),
        ev.now - s.lastOutputTime < interval →
        processFrame camera_name interval dbConfigured s ev = s)
    ∧ (∀ (s : StreamState) (ev : FrameEvent),
        interval ≤ ev.now - s.lastOutputTime →
        (processFrame camera_name interval dbConfigured s ev).frame_number
          = s.frame_number + 1) := by
  obtain ⟨g1, g2, _⟩ := streamRun_invariant camera_name interval dbConfigured
    evs (initialStreamState t0) rfl (by simp [initialStreamState])
    (by simp [initialStreamState])
  refine ⟨g1, g2, ?_, ?_⟩
  · intro s ev hg
    unfold processFrame
    rw [if_pos hg]
  · intro s ev hg
    unfold processFrame
    rw [if_neg (not_lt.mpr hg)]

/-- Evaluation of a one-frame run: from the initial state, processing
`ev1` emits frame 1 and persists exactly `rec1`. -/
theorem streamRun_ev1_eval :
    streamRun "cam" 1 true (initialStreamState 0) [ev1]
      = { lastOutputTime := 10, frame_number := 1, emitted := [1],
          saved := [rec1] } := by
  simp only [streamRun, processFrame, initialStreamState, ev1, det1, rec1]
  norm_num

/-- C4 witness: the run-level conjunct of the theorem applied to the
record persisted by the concrete one-frame run. -/
theorem C4_persist_iff_detections_witness :
    rec1 ∈ (streamRun "cam" 1 true (initialStreamState 0) [ev1]).saved
    ∧ rec1.detections ≠ [] := by
  have hmem : rec1 ∈ (streamRun "cam" 1 true
      (initialStreamState 0) [ev1]).saved := by
    rw [streamRun_ev1_eval]
    exact List.mem_singleton.mpr rfl
  exact ⟨hmem, (C4_persist_iff_detections "cam" 1 true 0 [ev1]
    (initialStreamState 0) ev1).2 rec1 hmem⟩

/-- C9 witness: the theorem applied at the concrete one-frame run and at
a concretely gated frame. -/
theorem C9_frame_numbers_strictly_increase_witness :
    (streamRun "cam" 1 true (initialStreamState 0) [ev1]).emitted
      = List.range' 1
          (streamRun "cam" 1 true (initialStreamState 0) [ev1]).frame_number
    ∧ processFrame "cam" 1 true (initialStreamState 0) evGated
      = initialStreamState 0 :=
  ⟨(C9_frame_numbers_strictly_increase "cam" 1 0 true [ev1]).1,
   (C9_frame_numbers_strictly_increase "cam" 1 0 true [ev1]).2.2.1
     (initialStreamState 0) evGated
     (by norm_num [evGated, initialStreamState])⟩

/-- C5: whenever the pool can hand out a connection, the context
manager returns it to the queue on exit — also when the caller's work
raised (the result is whatever `work` produced, error included) — so the
queue length after the call equals its length right before the
acquisition, and for an initialized pool equals the original length. -/
theorem C5_connection_released_on_error {ε α : Type} (p : PoolState)
    (work : ℕ → Except ε α) (h : (acquireState p).queue ≠ []) :
    ∃ res p', get_connection p work = some (res, p')
      ∧ (∃ c, res = work c)
      ∧ p'.queue.length = (acquireState p).queue.length
      ∧ (p.initialized = true → p'.queue.length = p.queue.length) := by
  cases hq : (acquireState p).queue with
  | nil => exact absurd hq h
  | cons c rest =>
    have hacq : acquireState p = p → p.queue = c :: rest := by
      intro he; rw [← he]; exact hq
    refine ⟨work c, { acquireState p with queue := rest ++ [c] }, ?_,
      ⟨c, rfl⟩, ?_, ?_⟩
    · unfold get_connection
      rw [hq]
    · show (rest ++ [c]).length = (c :: rest).length
      simp
    · intro hp
      have he : acquireState p = p := by unfold acquireState; rw [if_pos hp]
      show (rest ++ [c]).length = p.queue.length
      rw [hacq he]
      simp

/-- C5 witness: an initialized single-connection pool with work that
raises; the theorem applies and the pool size is restored. -/
theorem C5_connection_released_on_error_witness :
    ∃ res p', get_connection (⟨[7], true, 1⟩ : PoolState) failWork
        = some (res, p')
      ∧ (∃ c, res = failWork c)
      ∧ p'.queue.length = (acquireState ⟨[7], true, 1⟩).queue.length
      ∧ ((⟨[7], true, 1⟩ : PoolState).initialized = true →
          p'.queue.length = (⟨[7], true, 1⟩ : PoolState).queue.length) :=
  C5_connection_released_on_error ⟨[7], true, 1⟩ failWork (by decide)

/-- C6: `initialize` is idempotent — a second call returns the state
unchanged; after a first call from a fresh pool the queue holds exactly
`max_connections` connections and the pool is flagged initialized, and
any call on an initialized pool is the identity. -/
theorem C6_initPool_idempotent (p : PoolState) :
    initPool (initPool p) = initPool p
    ∧ (initPool p).initialized = true
    ∧ (p.initialized = false → p.queue = [] →
        (initPool p).queue.length = p.max_connections)
    ∧ (p.initialized = true → initPool p = p) := by
  have hinit : ∀ q : PoolState, q.initialized = true → initPool q = q := by
    intro q hq
    unfold initPool
    rw [if_pos hq]
  have htrue : (initPool p).initialized = true := by
    unfold initPool
    by_cases hp : p.initialized
    · rw [if_pos hp]; exact hp
    · rw [if_neg hp]
  refine ⟨hinit _ htrue, htrue, ?_, hinit p⟩
  intro h0 hq
  unfold initPool
  rw [if_neg (by rw [h0]; simp : ¬ p.initialized = true)]
  show (p.queue ++ List.range p.max_connections).length = p.max_connections
  rw [hq]
  simp

/-- C6 witness: the theorem at a fresh pool configured for three
connections. -/
theorem C6_initPool_idempotent_witness :
    (initPool ⟨[], false, 3⟩).queue.length = 3
    ∧ initPool (initPool ⟨[], false, 3⟩) = initPool ⟨[], false, 3⟩ :=
  ⟨(C6_initPool_idempotent ⟨[], false, 3⟩).2.2.1 rfl rfl,
   (C6_initPool_idempotent ⟨[], false, 3⟩).1⟩

end Gack
